import Mathlib

/-!
Shallow embedding of the core of `src/index.js` (appwrite-database-cloner):
document sanitizer, cursor paginator, schema replicator result logic,
readiness polling, diff engine and the snapshot life cycle of the data
phase, together with proofs of the spec's testable properties.
-/

set_option maxHeartbeats 1600000

namespace Cloner

/-- A JavaScript/JSON value: documents are objects whose fields are an open
map from strings to values (arrays and nested objects included). -/
inductive Value where
  | vnull : Value
  | vbool : Bool → Value
  | vnum : Int → Value
  | vstr : String → Value
  | varr : List Value → Value
  | vobj : List (String × Value) → Value

mutual

/-- Structural equality test on values (SameValueZero on scalars and deep
equality on containers, as the embedding's counterpart of JS equality of
the string/scalar keys the code stores in its `Set`). -/
def beqValue : Value → Value → Bool
  | Value.vnull, Value.vnull => true
  | Value.vbool a, Value.vbool b => a == b
  | Value.vnum a, Value.vnum b => a == b
  | Value.vstr a, Value.vstr b => a == b
  | Value.varr xs, Value.varr ys => beqValueList xs ys
  | Value.vobj fs, Value.vobj gs => beqFieldList fs gs
  | _, _ => false

/-- Elementwise equality test on value lists. -/
def beqValueList : List Value → List Value → Bool
  | [], [] => true
  | x :: xs, y :: ys => beqValue x y && beqValueList xs ys
  | _, _ => false

/-- Entrywise equality test on field lists. -/
def beqFieldList : List (String × Value) → List (String × Value) → Bool
  | [], [] => true
  | (k, v) :: fs, (l, w) :: gs => k == l && beqValue v w && beqFieldList fs gs
  | _, _ => false

end

mutual

theorem beqValue_iff : ∀ a b : Value, beqValue a b = true ↔ a = b
  | Value.vnull, b => by
      cases b <;> simp [beqValue]
  | Value.vbool a, b => by
      cases b <;> simp [beqValue]
  | Value.vnum a, b => by
      cases b <;> simp [beqValue]
  | Value.vstr a, b => by
      cases b <;> simp [beqValue]
  | Value.varr xs, b => by
      cases b <;> simp [beqValue]
      exact beqValueList_iff xs _
  | Value.vobj fs, b => by
      cases b <;> simp [beqValue]
      exact beqFieldList_iff fs _

theorem beqValueList_iff : ∀ xs ys : List Value, beqValueList xs ys = true ↔ xs = ys
  | [], ys => by
      cases ys <;> simp [beqValueList]
  | x :: xs, ys => by
      cases ys with
      | nil => simp [beqValueList]
      | cons y ys =>
          simp [beqValueList, beqValue_iff x y, beqValueList_iff xs ys]

theorem beqFieldList_iff :
    ∀ fs gs : List (String × Value), beqFieldList fs gs = true ↔ fs = gs
  | [], gs => by
      cases gs <;> simp [beqFieldList]
  | (k, v) :: fs, gs => by
      cases gs with
      | nil => simp [beqFieldList]
      | cons g gs =>
          obtain ⟨l, w⟩ := g
          simp [beqFieldList, beqValue_iff v w, beqFieldList_iff fs gs,
            and_assoc]

end

instance : BEq Value := ⟨beqValue⟩

instance : LawfulBEq Value where
  eq_of_beq h := (beqValue_iff _ _).mp h
  rfl := (beqValue_iff _ _).mpr rfl

instance : DecidableEq Value := fun a b =>
  decidable_of_iff (beqValue a b = true) (beqValue_iff a b)

/-- The 7 reserved service metadata keys, from `systemFields` in
`cleanDocumentData` (src/index.js lines 1035-1043). -/
def systemFields : List String :=
  ["$id", "$collectionId", "$databaseId", "$createdAt", "$updatedAt",
   "$permissions", "$sequence"]

/-- `isRelatedDocument` (src/index.js lines 1024-1030): a non-array object
carrying both a `$id` and a `$collectionId` key. -/
def isRelatedDocument : Value → Bool
  | Value.vobj fs => (fs.map Prod.fst).contains "$id" &&
                     (fs.map Prod.fst).contains "$collectionId"
  | _ => false

/-- Property access `item.$id` used when collapsing a related document. -/
def dollarId : Value → Value
  | Value.vobj fs =>
      match fs.lookup "$id" with
      | some v => v
      | none => Value.vnull
  | _ => Value.vnull

mutual

/-- `cleanNestedObject(obj, systemFields)` (src/index.js lines 1081-1100):
recursively strips the system fields from a nested object; `systemFields`
is the fixed list passed at every call site. -/
def cleanNestedObject : List (String × Value) → List (String × Value)
  | [] => []
  | (k, v) :: rest =>
      if k ∈ systemFields then cleanNestedObject rest
      else (k, cleanNestedValue v) :: cleanNestedObject rest

/-- Value handling inside `cleanNestedObject`: objects recurse, arrays map
their elements, anything else passes through. -/
def cleanNestedValue : Value → Value
  | Value.vobj fs => Value.vobj (cleanNestedObject fs)
  | Value.varr xs => Value.varr (cleanNestedArray xs)
  | v => v

/-- The array map inside `cleanNestedObject` (src/index.js lines 1087-1093). -/
def cleanNestedArray : List Value → List Value
  | [] => []
  | x :: rest => cleanNestedElem x :: cleanNestedArray rest

/-- One array element inside `cleanNestedObject`: a non-array object is
recursively cleaned, everything else (arrays included) is returned as is. -/
def cleanNestedElem : Value → Value
  | Value.vobj fs => Value.vobj (cleanNestedObject fs)
  | v => v

end

/-- One element of a top-level array field in `cleanDocumentData`
(src/index.js lines 1051-1061): a related document collapses to its `$id`,
a non-array object is recursively cleaned, everything else passes through. -/
def cleanTopElem (item : Value) : Value :=
  if isRelatedDocument item then dollarId item
  else
    match item with
    | Value.vobj fs => Value.vobj (cleanNestedObject fs)
    | v => v

/-- One top-level field value in `cleanDocumentData` (src/index.js lines
1049-1073): arrays map `cleanTopElem`, a related document collapses to its
`$id`, a non-array object is recursively cleaned, scalars pass through. -/
def cleanTopValue (value : Value) : Value :=
  match value with
  | Value.varr xs => Value.varr (xs.map cleanTopElem)
  | v =>
      if isRelatedDocument v then dollarId v
      else
        match v with
        | Value.vobj fs => Value.vobj (cleanNestedObject fs)
        | w => w

/-- `cleanDocumentData(document)` (src/index.js lines 1034-1078): drops the
system fields at top level and cleans every remaining field value. -/
def cleanDocumentData : List (String × Value) → List (String × Value)
  | [] => []
  | (k, v) :: rest =>
      if k ∈ systemFields then cleanDocumentData rest
      else (k, cleanTopValue v) :: cleanDocumentData rest

/-- A scalar (non-container) value: null, boolean, number or string. -/
def isScalar : Value → Bool
  | Value.varr _ => false
  | Value.vobj _ => false
  | _ => true

mutual

/-- Sanitized shape of an object produced by the cleaner: no reserved key
in this object, and every value sanitized in turn. Arrays directly inside
arrays are exempt, mirroring the cleaner's pass-through of such elements. -/
def sanObj : List (String × Value) → Bool
  | [] => true
  | (k, v) :: rest => !(decide (k ∈ systemFields)) && sanVal v && sanObj rest

/-- Sanitized shape of a field value: objects are sanitized objects, arrays
have sanitized elements, scalars are unconstrained. -/
def sanVal : Value → Bool
  | Value.vobj fs => sanObj fs
  | Value.varr xs => sanArr xs
  | _ => true

/-- Sanitized shape of an array: every element sanitized as an element. -/
def sanArr : List Value → Bool
  | [] => true
  | x :: rest => sanElem x && sanArr rest

/-- Sanitized shape of an array element: objects are sanitized objects;
arrays (and scalars) are unconstrained, because the cleaner passes an
array occurring as an array element through unchanged. -/
def sanElem : Value → Bool
  | Value.vobj fs => sanObj fs
  | _ => true

end

/-- Proviso on a relationship-shaped value: its `$id` is a scalar (as the
service always populates it with a string). -/
def goodRelElem (x : Value) : Bool :=
  !(isRelatedDocument x) || isScalar (dollarId x)

/-- Proviso on a top-level field value: the relationship-shaped values the
cleaner collapses there (the value itself, or each direct array element)
carry scalar `$id` values. -/
def goodTopValue : Value → Bool
  | Value.varr xs => xs.all goodRelElem
  | v => goodRelElem v

/-- Proviso on a whole document: every top-level field value satisfies
`goodTopValue`. -/
def goodDocument (d : List (String × Value)) : Bool :=
  d.all (fun p => goodTopValue p.2)

mutual

theorem sanObj_cleanNestedObject : ∀ fs, sanObj (cleanNestedObject fs) = true
  | [] => rfl
  | (k, v) :: rest => by
      by_cases h : k ∈ systemFields
      · simpa [cleanNestedObject, h] using sanObj_cleanNestedObject rest
      · simp [cleanNestedObject, h, sanObj, sanVal_cleanNestedValue v,
          sanObj_cleanNestedObject rest]

theorem sanVal_cleanNestedValue : ∀ v, sanVal (cleanNestedValue v) = true
  | Value.vnull => rfl
  | Value.vbool _ => rfl
  | Value.vnum _ => rfl
  | Value.vstr _ => rfl
  | Value.varr xs => by
      simp [cleanNestedValue, sanVal, sanArr_cleanNestedArray xs]
  | Value.vobj fs => by
      simp [cleanNestedValue, sanVal, sanObj_cleanNestedObject fs]

theorem sanArr_cleanNestedArray : ∀ xs, sanArr (cleanNestedArray xs) = true
  | [] => rfl
  | x :: rest => by
      simp [cleanNestedArray, sanArr, sanElem_cleanNestedElem x,
        sanArr_cleanNestedArray rest]

theorem sanElem_cleanNestedElem : ∀ x, sanElem (cleanNestedElem x) = true
  | Value.vnull => rfl
  | Value.vbool _ => rfl
  | Value.vnum _ => rfl
  | Value.vstr _ => rfl
  | Value.varr _ => rfl
  | Value.vobj fs => by
      simp [cleanNestedElem, sanElem, sanObj_cleanNestedObject fs]

end

theorem sanVal_of_isScalar {v : Value} (h : isScalar v = true) :
    sanVal v = true := by
  cases v <;> simp_all [isScalar, sanVal]

theorem sanElem_of_not_vobj (v : Value) (h : ∀ fs, v ≠ Value.vobj fs) :
    sanElem v = true := by
  cases v <;> simp_all [sanElem]

theorem sanElem_cleanTopElem (x : Value) (h : goodRelElem x = true) :
    sanElem (cleanTopElem x) = true := by
  by_cases hr : isRelatedDocument x = true
  · have hs : isScalar (dollarId x) = true := by
      simpa [goodRelElem, hr] using h
    simp only [cleanTopElem, hr, if_true]
    cases hdi : dollarId x <;> simp_all [isScalar, sanElem]
  · cases x <;> simp_all [cleanTopElem, sanElem, sanObj_cleanNestedObject]

theorem sanArr_map_cleanTopElem (xs : List Value)
    (h : ∀ x ∈ xs, goodRelElem x = true) :
    sanArr (xs.map cleanTopElem) = true := by
  induction xs with
  | nil => rfl
  | cons x rest ih =>
      simp only [List.map_cons, sanArr, Bool.and_eq_true]
      exact ⟨sanElem_cleanTopElem x (h x (by simp)),
        ih (fun y hy => h y (by simp [hy]))⟩

theorem sanVal_cleanTopValue (v : Value) (h : goodTopValue v = true) :
    sanVal (cleanTopValue v) = true := by
  cases v with
  | varr xs =>
      have hall : ∀ x ∈ xs, goodRelElem x = true := by
        simpa [goodTopValue, List.all_eq_true] using h
      simpa [cleanTopValue, sanVal] using sanArr_map_cleanTopElem xs hall
  | vobj fs =>
      by_cases hr : isRelatedDocument (Value.vobj fs) = true
      · have hs : isScalar (dollarId (Value.vobj fs)) = true := by
          simpa [goodTopValue, goodRelElem, hr] using h
        simp only [cleanTopValue, hr, if_true]
        exact sanVal_of_isScalar hs
      · simp [cleanTopValue, hr, sanVal, sanObj_cleanNestedObject fs]
  | vnull => rfl
  | vbool b => rfl
  | vnum n => rfl
  | vstr s => rfl

theorem sanObj_cleanDocumentData (d : List (String × Value))
    (hd : goodDocument d = true) :
    sanObj (cleanDocumentData d) = true := by
  induction d with
  | nil => rfl
  | cons p rest ih =>
      obtain ⟨k, v⟩ := p
      have hv : goodTopValue v = true := by
        simp [goodDocument, List.all_eq_true] at hd
        exact hd.1
      have hrest : goodDocument rest = true := by
        simp [goodDocument, List.all_eq_true] at hd ⊢
        exact hd.2
      by_cases h : k ∈ systemFields
      · simpa [cleanDocumentData, h] using ih hrest
      · simp [cleanDocumentData, h, sanObj, sanVal_cleanTopValue v hv,
          ih hrest]

theorem mem_cleanDocumentData {d : List (String × Value)} {k : String}
    {v : Value} (hm : (k, v) ∈ d) (hk : k ∉ systemFields) :
    (k, cleanTopValue v) ∈ cleanDocumentData d := by
  induction d with
  | nil => cases hm
  | cons p rest ih =>
      rcases List.mem_cons.mp hm with h | h
      · subst h
        simp [cleanDocumentData, hk]
      · obtain ⟨l, w⟩ := p
        by_cases hl : l ∈ systemFields
        · simpa [cleanDocumentData, hl] using ih h
        · simp [cleanDocumentData, hl]
          exact Or.inr (ih h)

theorem cleanTopValue_of_related {v : Value} (h : isRelatedDocument v = true) :
    cleanTopValue v = dollarId v := by
  cases v <;> simp_all [cleanTopValue, isRelatedDocument]

theorem cleanTopElem_of_related {x : Value} (h : isRelatedDocument x = true) :
    cleanTopElem x = dollarId x := by
  simp [cleanTopElem, h]

theorem sanObj_mem {fs : List (String × Value)} (h : sanObj fs = true) :
    ∀ p ∈ fs, p.1 ∉ systemFields ∧ sanVal p.2 = true := by
  induction fs with
  | nil => intro p hp; cases hp
  | cons q rest ih =>
      obtain ⟨k, v⟩ := q
      simp only [sanObj, Bool.and_eq_true, Bool.not_eq_true',
        decide_eq_false_iff_not] at h
      intro p hp
      rcases List.mem_cons.mp hp with hq | hq
      · subst hq; exact ⟨h.1.1, h.1.2⟩
      · exact ih h.2 p hq

theorem isRelatedDocument_of_sanObj {fs : List (String × Value)}
    (h : sanObj fs = true) : isRelatedDocument (Value.vobj fs) = false := by
  simp only [isRelatedDocument, Bool.and_eq_false_iff]
  left
  by_contra hc
  rw [Bool.not_eq_false] at hc
  obtain ⟨p, hp, hk⟩ := List.mem_map.mp (List.mem_of_elem_eq_true hc)
  exact absurd (hk ▸ (sanObj_mem h p hp).1) (by simp [systemFields])

mutual

/-- Modelled from the spec claim: the output "contains none of the 7
reserved metadata keys at any nesting depth" — a deep check recursing
through all objects and all arrays without exemption. Used only to compare
the claim's wording with the code's actual behavior. -/
def noReservedDeepObj : List (String × Value) → Bool
  | [] => true
  | (k, v) :: rest =>
      !(decide (k ∈ systemFields)) && noReservedDeepVal v &&
        noReservedDeepObj rest

/-- Deep reserved-key check on a value (claim-side, see
`noReservedDeepObj`). -/
def noReservedDeepVal : Value → Bool
  | Value.vobj fs => noReservedDeepObj fs
  | Value.varr xs => noReservedDeepArr xs
  | _ => true

/-- Deep reserved-key check on an array (claim-side, see
`noReservedDeepObj`). -/
def noReservedDeepArr : List Value → Bool
  | [] => true
  | x :: rest => noReservedDeepVal x && noReservedDeepArr rest

end

/-- Input refuting C1 as stated: a relationship-shaped object nested inside
a plain object, and an object with a reserved key inside a doubly nested
array. -/
def dC1 : List (String × Value) :=
  [("wrap", Value.vobj
      [("inner", Value.vobj
          [("$id", Value.vstr "x"), ("$collectionId", Value.vstr "c")])]),
   ("aa", Value.varr [Value.varr [Value.vobj [("$id", Value.vstr "x")]]])]

/-- C1 (counterexample): on `dC1` the sanitizer neither collapses the
relationship-shaped object nested inside the plain object `wrap` (it strips
its keys instead, leaving an empty object, not the identifier string `x`)
nor removes the reserved `$id` key sitting below the doubly nested array
`aa`, so the output fails the claim's deep reserved-key ban. -/
theorem cleanDocumentData_not_deep_clean :
    cleanDocumentData dC1 =
      [("wrap", Value.vobj [("inner", Value.vobj [])]),
       ("aa", Value.varr [Value.varr [Value.vobj [("$id", Value.vstr "x")]]])]
    ∧ noReservedDeepObj (cleanDocumentData dC1) = false
    ∧ isRelatedDocument (Value.vobj
        [("$id", Value.vstr "x"), ("$collectionId", Value.vstr "c")]) = true
    ∧ (cleanDocumentData dC1).lookup "wrap" ≠
        some (Value.vobj [("inner", Value.vstr "x")]) := by
  refine ⟨by decide, by decide, by decide, by decide⟩

/-- C1 (amended): for every document whose relationship-shaped top-level
values carry scalar identifiers, the sanitizer's output has no reserved
metadata key in any object not sitting below a doubly nested array (arrays
that are elements of arrays pass through unchanged), contains no
relationship-shaped value among its field values, and collapses every
relationship-shaped input value occurring as a top-level field value, or as
a direct element of a top-level array field, to its bare `$id`. -/
theorem cleanDocumentData_sanitizes (d : List (String × Value))
    (hd : goodDocument d = true) :
    sanObj (cleanDocumentData d) = true
    ∧ (∀ p ∈ cleanDocumentData d, isRelatedDocument p.2 = false)
    ∧ (∀ k v, (k, v) ∈ d → k ∉ systemFields → isRelatedDocument v = true →
        (k, dollarId v) ∈ cleanDocumentData d)
    ∧ (∀ k xs, (k, Value.varr xs) ∈ d → k ∉ systemFields →
        (k, Value.varr (xs.map cleanTopElem)) ∈ cleanDocumentData d
        ∧ ∀ x ∈ xs, isRelatedDocument x = true → cleanTopElem x = dollarId x) := by
  have hs := sanObj_cleanDocumentData d hd
  refine ⟨hs, ?_, ?_, ?_⟩
  · intro p hp
    have hv := (sanObj_mem hs p hp).2
    cases hpv : p.2 with
    | vobj fs =>
        exact isRelatedDocument_of_sanObj (by simpa [hpv, sanVal] using hv)
    | vnull => simp [isRelatedDocument]
    | vbool b => simp [isRelatedDocument]
    | vnum n => simp [isRelatedDocument]
    | vstr s => simp [isRelatedDocument]
    | varr xs => simp [isRelatedDocument]
  · intro k v hm hk hr
    have := mem_cleanDocumentData hm hk
    rwa [cleanTopValue_of_related hr] at this
  · intro k xs hm hk
    refine ⟨?_, fun x _ hx => cleanTopElem_of_related hx⟩
    have := mem_cleanDocumentData hm hk
    simpa [cleanTopValue] using this

/-- Concrete document exercising `cleanDocumentData_sanitizes`. -/
def dW1 : List (String × Value) :=
  [("$id", Value.vstr "doc1"),
   ("name", Value.vstr "n"),
   ("rel", Value.vobj [("$id", Value.vstr "r1"), ("$collectionId", Value.vstr "c")]),
   ("tags", Value.varr
      [Value.vstr "t",
       Value.vobj [("$id", Value.vstr "r2"), ("$collectionId", Value.vstr "c")]])]

/-- Witness for `cleanDocumentData_sanitizes` at the concrete document
`dW1`: the output is sanitized and both relationship collapses happen. -/
theorem cleanDocumentData_sanitizes_witness :
    sanObj (cleanDocumentData dW1) = true
    ∧ ("rel", Value.vstr "r1") ∈ cleanDocumentData dW1 := by
  have h := cleanDocumentData_sanitizes dW1 (by decide)
  refine ⟨h.1, ?_⟩
  have hm := h.2.2.1 "rel"
    (Value.vobj [("$id", Value.vstr "r1"), ("$collectionId", Value.vstr "c")])
    (by simp [dW1]) (by decide) (by decide)
  simpa using hm

mutual

theorem cleanNestedObject_idem :
    ∀ fs, cleanNestedObject (cleanNestedObject fs) = cleanNestedObject fs
  | [] => rfl
  | (k, v) :: rest => by
      by_cases h : k ∈ systemFields
      · simpa [cleanNestedObject, h] using cleanNestedObject_idem rest
      · simp [cleanNestedObject, h, cleanNestedValue_idem v,
          cleanNestedObject_idem rest]

theorem cleanNestedValue_idem :
    ∀ v, cleanNestedValue (cleanNestedValue v) = cleanNestedValue v
  | Value.vnull => rfl
  | Value.vbool _ => rfl
  | Value.vnum _ => rfl
  | Value.vstr _ => rfl
  | Value.varr xs => by
      simp [cleanNestedValue, cleanNestedArray_idem xs]
  | Value.vobj fs => by
      simp [cleanNestedValue, cleanNestedObject_idem fs]

theorem cleanNestedArray_idem :
    ∀ xs, cleanNestedArray (cleanNestedArray xs) = cleanNestedArray xs
  | [] => rfl
  | x :: rest => by
      simp [cleanNestedArray, cleanNestedElem_idem x,
        cleanNestedArray_idem rest]

theorem cleanNestedElem_idem :
    ∀ x, cleanNestedElem (cleanNestedElem x) = cleanNestedElem x
  | Value.vnull => rfl
  | Value.vbool _ => rfl
  | Value.vnum _ => rfl
  | Value.vstr _ => rfl
  | Value.varr _ => rfl
  | Value.vobj fs => by
      simp [cleanNestedElem, cleanNestedObject_idem fs]

end

theorem isRelatedDocument_cleanNestedObject (fs : List (String × Value)) :
    isRelatedDocument (Value.vobj (cleanNestedObject fs)) = false :=
  isRelatedDocument_of_sanObj (sanObj_cleanNestedObject fs)

theorem isRelatedDocument_scalar {v : Value} (h : isScalar v = true) :
    isRelatedDocument v = false := by
  cases v <;> simp_all [isScalar, isRelatedDocument]

theorem cleanTopElem_scalar {v : Value} (h : isScalar v = true) :
    cleanTopElem v = v := by
  cases v <;> simp_all [isScalar, cleanTopElem, isRelatedDocument]

theorem cleanTopValue_scalar {v : Value} (h : isScalar v = true) :
    cleanTopValue v = v := by
  cases v <;> simp_all [isScalar, cleanTopValue, isRelatedDocument]

theorem cleanTopElem_idem (x : Value) (h : goodRelElem x = true) :
    cleanTopElem (cleanTopElem x) = cleanTopElem x := by
  by_cases hr : isRelatedDocument x = true
  · have hs : isScalar (dollarId x) = true := by
      simpa [goodRelElem, hr] using h
    rw [cleanTopElem_of_related hr, cleanTopElem_scalar hs]
  · cases x with
    | vobj fs =>
        have hx : cleanTopElem (Value.vobj fs) =
            Value.vobj (cleanNestedObject fs) := by
          simp [cleanTopElem, hr]
        rw [hx]
        simp [cleanTopElem, isRelatedDocument_cleanNestedObject fs,
          cleanNestedObject_idem fs]
    | vnull => rfl
    | vbool b => rfl
    | vnum n => rfl
    | vstr s => rfl
    | varr xs => rfl

theorem cleanTopValue_idem (v : Value) (h : goodTopValue v = true) :
    cleanTopValue (cleanTopValue v) = cleanTopValue v := by
  cases v with
  | varr xs =>
      have hall : ∀ x ∈ xs, goodRelElem x = true := by
        simpa [goodTopValue, List.all_eq_true] using h
      simp only [cleanTopValue, List.map_map]
      congr 1
      exact List.map_congr_left fun x hx =>
        cleanTopElem_idem x (hall x hx)
  | vobj fs =>
      by_cases hr : isRelatedDocument (Value.vobj fs) = true
      · have hs : isScalar (dollarId (Value.vobj fs)) = true := by
          simpa [goodTopValue, goodRelElem, hr] using h
        rw [cleanTopValue_of_related hr, cleanTopValue_scalar hs]
      · have hx : cleanTopValue (Value.vobj fs) =
            Value.vobj (cleanNestedObject fs) := by
          simp [cleanTopValue, hr]
        rw [hx]
        simp [cleanTopValue, isRelatedDocument_cleanNestedObject fs,
          cleanNestedObject_idem fs]
  | vnull => rfl
  | vbool b => rfl
  | vnum n => rfl
  | vstr s => rfl

/-- C9 (amended): the sanitizer is idempotent on every document whose
relationship-shaped top-level values (field values and direct elements of
array fields) carry scalar `$id` values — in particular on all documents
the service produces, where `$id` is a string. -/
theorem cleanDocumentData_idem (d : List (String × Value))
    (hd : goodDocument d = true) :
    cleanDocumentData (cleanDocumentData d) = cleanDocumentData d := by
  induction d with
  | nil => rfl
  | cons p rest ih =>
      obtain ⟨k, v⟩ := p
      have hv : goodTopValue v = true := by
        simp [goodDocument, List.all_eq_true] at hd
        exact hd.1
      have hrest : goodDocument rest = true := by
        simp [goodDocument, List.all_eq_true] at hd ⊢
        exact hd.2
      by_cases h : k ∈ systemFields
      · simpa [cleanDocumentData, h] using ih hrest
      · simp [cleanDocumentData, h, cleanTopValue_idem v hv, ih hrest]

/-- Input refuting C9 as stated: a relationship-shaped top-level value
whose `$id` is itself relationship-shaped. -/
def dC9 : List (String × Value) :=
  [("r", Value.vobj
      [("$id", Value.vobj
          [("$id", Value.vstr "a"), ("$collectionId", Value.vstr "c")]),
       ("$collectionId", Value.vstr "c")])]

/-- C9 (counterexample): on `dC9` the first sanitization pass collapses the
field `r` to its `$id`, which is itself relationship-shaped, so the second
pass collapses again and the two outputs differ. -/
theorem cleanDocumentData_not_idem :
    cleanDocumentData (cleanDocumentData dC9) ≠ cleanDocumentData dC9
    ∧ cleanDocumentData dC9 =
        [("r", Value.vobj
            [("$id", Value.vstr "a"), ("$collectionId", Value.vstr "c")])]
    ∧ cleanDocumentData (cleanDocumentData dC9) = [("r", Value.vstr "a")] :=
  ⟨by decide, by decide, by decide⟩

/-- Witness for `cleanDocumentData_idem` at the concrete document `dW1`. -/
theorem cleanDocumentData_idem_witness :
    cleanDocumentData (cleanDocumentData dW1) = cleanDocumentData dW1 :=
  cleanDocumentData_idem dW1 (by decide)

section Paginator

variable {α : Type}

/-- The remote listing endpoint, modelled as a stable forward-ordered list
`L`: with no cursor it serves `L` from the start; with `cursorAfter c` it
serves the items strictly after the first item whose key is `c`. -/
def listAfter (key : α → String) (L : List α) : Option String → List α
  | none => L
  | some c => (L.dropWhile (fun it => !(key it == c))).drop 1

/-- One listing response for `Query.limit(limit)` plus the optional
`Query.cursorAfter` parameter. -/
def listPage (key : α → String) (L : List α) (limit : Nat)
    (cursor : Option String) : List α :=
  (listAfter key L cursor).take limit

/-- The cursor loop shared by `fetchAllDocuments`, `fetchAllCollections`,
`fetchAllAttributes` and `fetchAllIndexes` (src/index.js lines 379-428 and
972-1021): request a page, append it, stop when the page is short,
otherwise continue after the last item's key. Returns the accumulated
items together with the number of listing requests made; `fuel` bounds the
iterations so the function is total (the theorems show the bound is never
reached). The `getLast? = none` branch is unreachable for a positive
limit. -/
def fetchAllLoop (key : α → String) (L : List α) (limit : Nat) :
    Nat → Option String → List α × Nat
  | 0, _ => ([], 0)
  | fuel + 1, cursor =>
      let page := listPage key L limit cursor
      if page.length < limit then (page, 1)
      else
        match page.getLast? with
        | none => (page, 1)
        | some last =>
            let r := fetchAllLoop key L limit fuel (some (key last))
            (page ++ r.1, r.2 + 1)

/-- `fetchAllDocuments` (src/index.js lines 998-1021): page size
`config.batchSize`, cursor key `$id`. -/
def fetchAllDocuments (key : α → String) (L : List α) (batchSize : Nat) :
    List α × Nat :=
  fetchAllLoop key L batchSize (L.length + 1) none

/-- `fetchAllCollections` (src/index.js lines 972-995): fixed page size
100, cursor key `$id`. `fetchAllAttributes` and `fetchAllIndexes`
(lines 379-428) are the same loop with cursor key `key`. -/
def fetchAllCollections (key : α → String) (L : List α) : List α × Nat :=
  fetchAllLoop key L 100 (L.length + 1) none

theorem listAfter_decomp (key : α → String) :
    ∀ (A : List α) (x : α) (B : List α),
      (((A ++ x :: B).map key).Nodup) →
      listAfter key (A ++ x :: B) (some (key x)) = B := by
  intro A
  induction A with
  | nil =>
      intro x B _
      simp [listAfter, List.dropWhile]
  | cons a A ih =>
      intro x B hnd
      simp only [List.map, List.cons_append, List.nodup_cons] at hnd
      have hne : key a ≠ key x := by
        intro h
        exact hnd.1 (by simp [h])
      have : (!(key a == key x)) = true := by
        simp [hne]
      simp only [listAfter, List.cons_append, List.dropWhile_cons, this,
        if_true]
      exact ih x B hnd.2

theorem fetchAllLoop_spec (key : α → String) (L : List α) (P : Nat)
    (hP : 0 < P) (hnd : (L.map key).Nodup) :
    ∀ (fuel k : Nat) (c : Option String),
      listAfter key L c = L.drop k → L.length - k < fuel →
      fetchAllLoop key L P fuel c = (L.drop k, (L.length - k) / P + 1) := by
  intro fuel
  induction fuel with
  | zero => intro k c _ hf; exact absurd hf (Nat.not_lt_zero _)
  | succ fuel ih =>
      intro k c hc hf
      have hpage : listPage key L P c = (L.drop k).take P := by
        simp [listPage, hc]
      simp only [fetchAllLoop, hpage]
      rcases Nat.lt_or_ge (L.drop k).length P with hlt | hge
      · have htake : (L.drop k).take P = L.drop k :=
          List.take_of_length_le (Nat.le_of_lt hlt)
        rw [htake, if_pos hlt]
        have hdiv : (L.length - k) / P = 0 :=
          Nat.div_eq_of_lt (by simp only [List.length_drop] at hlt; omega)
        rw [hdiv]
      · have hk : k + P ≤ L.length := by
          simp only [List.length_drop] at hge
          omega
        have hlenpage : ((L.drop k).take P).length = P := by
          simp only [List.length_take, List.length_drop]
          omega
        have hnotshort : ¬ (((L.drop k).take P).length < P) := by
          rw [hlenpage]; exact lt_irrefl P
        rw [if_neg hnotshort]
        have hm : k + P - 1 < L.length := by omega
        have hlast : ((L.drop k).take P).getLast? = some (L[k + P - 1]) := by
          rw [List.getLast?_eq_getElem?, hlenpage]
          have h1 : P - 1 < P := by omega
          rw [List.getElem?_take_of_lt h1, List.getElem?_drop]
          have h2 : k + (P - 1) = k + P - 1 := by omega
          rw [h2, List.getElem?_eq_getElem hm]
        have hdecomp : L = L.take (k + P - 1) ++
            L[k + P - 1] :: L.drop (k + P) := by
          have h1 : k + P - 1 + 1 = k + P := by omega
          conv_lhs => rw [← List.take_append_drop (k + P - 1) L]
          rw [List.drop_eq_getElem_cons hm, h1]
        have hnext : listAfter key L (some (key (L[k + P - 1]))) =
            L.drop (k + P) := by
          have hres := listAfter_decomp key (L.take (k + P - 1))
            (L[k + P - 1]) (L.drop (k + P)) (hdecomp ▸ hnd)
          rw [← hdecomp] at hres
          exact hres
        have hfuel : L.length - (k + P) < fuel := by omega
        have hrec := ih (k + P) _ hnext hfuel
        have happend : (L.drop k).take P ++ L.drop (k + P) = L.drop k := by
          have h3 : L.drop (k + P) = (L.drop k).drop P := by
            rw [List.drop_drop]
          rw [h3, List.take_append_drop]
        have hcount : (L.length - (k + P)) / P + 1 = (L.length - k) / P := by
          have hle : P ≤ L.length - k := by omega
          have hsub : L.length - (k + P) = L.length - k - P := by omega
          rw [hsub]
          exact (Nat.div_eq_sub_div hP hle).symm
        rw [hlast]
        simp only [hrec, happend, hcount]

/-- C2 (amended): for a stable forward-ordered listing of `N` items with
distinct keys and page size `P > 0`, the paginator returns exactly the `N`
items, each exactly once, in the original order, and performs exactly
`N / P + 1` listing requests — one more than `ceil(N/P)` whenever `P`
divides `N` (including `N = 0`), and equal to `ceil(N/P)` otherwise. -/
theorem fetchAll_returns_all (key : α → String) (L : List α) (P : Nat)
    (hP : 0 < P) (hnd : (L.map key).Nodup) :
    fetchAllDocuments key L P = (L, L.length / P + 1)
    ∧ fetchAllCollections key L = (L, L.length / 100 + 1) := by
  constructor
  · have := fetchAllLoop_spec key L P hP hnd (L.length + 1) 0 none
      (by simp [listAfter]) (by omega)
    simpa [fetchAllDocuments] using this
  · have := fetchAllLoop_spec key L 100 (by omega) hnd (L.length + 1) 0 none
      (by simp [listAfter]) (by omega)
    simpa [fetchAllCollections] using this

/-- C2 (counterexample): one item with page size 1. The first page is full,
so the loop issues a second, empty request: 2 requests, whereas
`ceil(1/1) = 1`. -/
theorem fetchAll_request_count_not_ceil :
    fetchAllDocuments (fun s => s) ["a"] 1 = (["a"], 2)
    ∧ (1 + 1 - 1) / 1 = 1 ∧ (2 : Nat) ≠ 1 := by
  refine ⟨by decide, by decide, by decide⟩

/-- Witness for `fetchAll_returns_all`: three items with page size 2 come
back intact in 2 requests (`3 / 2 + 1 = 2`). -/
theorem fetchAll_returns_all_witness :
    fetchAllDocuments (fun s => s) ["a", "b", "c"] 2 = (["a", "b", "c"], 2)
    ∧ fetchAllCollections (fun s => s) ["a", "b", "c"] =
        (["a", "b", "c"], 1) :=
  fetchAll_returns_all (fun s => s) ["a", "b", "c"] 2 (by decide) (by decide)

end Paginator

section SchemaReplicator

/-- A source attribute, with the fields the replicator inspects: `key`,
`type`, the relationship `side` marker (empty when absent) and the
readiness `status`. -/
structure Attribute where
  key : String
  type : String
  side : String
  status : String
  deriving DecidableEq

/-- A source index, with the fields the replicator passes to creation and
inspects while polling. -/
structure Index where
  key : String
  type : String
  attributes : List String
  orders : List String
  status : String
  deriving DecidableEq

/-- Outcome of one remote create call as the code observes it: the
`{ success: true }` or `{ success: false, error }` object returned by
`createAttribute` / `createIndex` (src/index.js lines 448-581, 615-629),
which catch any thrown error. The unknown-type default branch is an
`error` outcome as well. -/
inductive CallResult where
  | ok : CallResult
  | error : String → CallResult
  deriving DecidableEq

/-- Whether a call result is a failure. -/
def isErrorResult : CallResult → Bool
  | CallResult.ok => false
  | CallResult.error _ => true

/-- The skip test of `createAttributes` (src/index.js line 594): a
relationship attribute auto-created by its two-way parent. -/
def isChildRelationship (a : Attribute) : Bool :=
  a.type == "relationship" && a.side == "child"

/-- Accumulated result of a `createAttributes` / `createIndexes` batch:
the counters and error list the code returns, plus `submitted`, the
sequence of create calls actually issued (the embedding's effect trace). -/
structure BatchResult (α : Type) where
  successCount : Nat
  errorCount : Nat
  errors : List (String × String)
  submitted : List α
  deriving DecidableEq

/-- The fixed poll sleep of both wait loops (`setTimeout(resolve, 1000)`,
src/index.js lines 441 and 642), in milliseconds; real time is not
modelled further. -/
def pollIntervalMs : Nat := 1000

/-- The shared poll loop of `waitForAttribute` (src/index.js lines 431-445)
and `waitForIndex` (lines 632-646): `fetch i` is the listing returned by
the i-th re-fetch, `i` the current attempt, the last argument the
remaining attempt budget. Returns the poll outcome and the number of list
re-fetches made. -/
def pollLoop {α : Type} (fetch : Nat → List α) (keyOf statusOf : α → String)
    (targetKey : String) : Nat → Nat → Bool × Nat
  | _, 0 => (false, 0)
  | i, remaining + 1 =>
      match (fetch i).find? (fun a => keyOf a == targetKey) with
      | some a =>
          if statusOf a == "available" then (true, 1)
          else
            let r := pollLoop fetch keyOf statusOf targetKey (i + 1) remaining
            (r.1, r.2 + 1)
      | none =>
          let r := pollLoop fetch keyOf statusOf targetKey (i + 1) remaining
          (r.1, r.2 + 1)

/-- `waitForAttribute` (src/index.js lines 431-445); the callers always use
the default budget `maxRetries = 30`. -/
def waitForAttribute (fetch : Nat → List Attribute) (attributeKey : String)
    (maxRetries : Nat) : Bool × Nat :=
  pollLoop fetch Attribute.key Attribute.status attributeKey 0 maxRetries

/-- `waitForIndex` (src/index.js lines 632-646); the callers always use the
default budget `maxRetries = 60`. -/
def waitForIndex (fetch : Nat → List Index) (indexKey : String)
    (maxRetries : Nat) : Bool × Nat :=
  pollLoop fetch Index.key Index.status indexKey 0 maxRetries

/-- Whether one fetched listing reports the target key as `available` (the
success test inside the poll loop). -/
def keyAvailable {α : Type} (l : List α) (keyOf statusOf : α → String)
    (targetKey : String) : Bool :=
  match l.find? (fun a => keyOf a == targetKey) with
  | some a => statusOf a == "available"
  | none => false

/-- `createAttributes` (src/index.js lines 584-612): iterate the source
attributes in order, skip child-side relationship attributes, issue the
create call (`outcome`), and on success poll readiness (`wait`, whose
result the code discards). Counters and the error list accumulate exactly
as in the code; `submitted` records the create calls issued. -/
def createAttributes (attributes : List Attribute)
    (outcome : Attribute → CallResult) (wait : Attribute → Bool) :
    BatchResult Attribute :=
  match attributes with
  | [] => ⟨0, 0, [], []⟩
  | a :: rest =>
      if isChildRelationship a then createAttributes rest outcome wait
      else
        match outcome a with
        | CallResult.ok =>
            let _ := wait a
            let r := createAttributes rest outcome wait
            ⟨r.successCount + 1, r.errorCount, r.errors, a :: r.submitted⟩
        | CallResult.error e =>
            let r := createAttributes rest outcome wait
            ⟨r.successCount, r.errorCount + 1, (a.key, e) :: r.errors,
              a :: r.submitted⟩

/-- `createIndexes` (src/index.js lines 649-668): same accumulation as
`createAttributes` but with no skip rule. -/
def createIndexes (indexes : List Index)
    (outcome : Index → CallResult) (wait : Index → Bool) :
    BatchResult Index :=
  match indexes with
  | [] => ⟨0, 0, [], []⟩
  | i :: rest =>
      match outcome i with
      | CallResult.ok =>
          let _ := wait i
          let r := createIndexes rest outcome wait
          ⟨r.successCount + 1, r.errorCount, r.errors, i :: r.submitted⟩
      | CallResult.error e =>
          let r := createIndexes rest outcome wait
          ⟨r.successCount, r.errorCount + 1, (i.key, e) :: r.errors,
            i :: r.submitted⟩

/-- The object returned by `cloneCollectionStructure` (src/index.js lines
671-744). -/
structure StructureResult where
  success : Bool
  error : Option String
  attributeErrors : List (String × String)
  indexErrors : List (String × String)
  deriving DecidableEq

/-- `cloneCollectionStructure` (src/index.js lines 671-744):
`createCollection` is the outcome of the destination collection-shell
create call; when it throws, the catch returns failure with the initial
empty error lists. Otherwise attributes and indexes are replayed and the
result is a failure exactly when `attrResult.errorCount > 0`. -/
def cloneCollectionStructure (createCollection : CallResult)
    (attributes : List Attribute) (attrOutcome : Attribute → CallResult)
    (attrWait : Attribute → Bool) (indexes : List Index)
    (idxOutcome : Index → CallResult) (idxWait : Index → Bool) :
    StructureResult :=
  match createCollection with
  | CallResult.error e => ⟨false, some e, [], []⟩
  | CallResult.ok =>
      let attrResult := createAttributes attributes attrOutcome attrWait
      let idxResult := createIndexes indexes idxOutcome idxWait
      if attrResult.errorCount > 0 then
        ⟨false,
         some (toString attrResult.errorCount ++
           " attribute(s) failed to create"),
         attrResult.errors, idxResult.errors⟩
      else
        ⟨true, none, [], idxResult.errors⟩

theorem createAttributes_errorCount (attributes : List Attribute)
    (outcome : Attribute → CallResult) (wait : Attribute → Bool) :
    (createAttributes attributes outcome wait).errorCount =
      (attributes.filter
        (fun a => !isChildRelationship a && isErrorResult (outcome a))).length := by
  induction attributes with
  | nil => rfl
  | cons a rest ih =>
      by_cases hskip : isChildRelationship a = true
      · simp [createAttributes, hskip, ih]
      · rw [Bool.not_eq_true] at hskip
        cases ho : outcome a with
        | ok => simp [createAttributes, hskip, ho, ih, isErrorResult]
        | error e => simp [createAttributes, hskip, ho, ih, isErrorResult]

theorem createIndexes_errors (indexes : List Index)
    (outcome : Index → CallResult) (wait : Index → Bool) :
    (createIndexes indexes outcome wait).errors =
      indexes.filterMap (fun i =>
        match outcome i with
        | CallResult.ok => none
        | CallResult.error e => some (i.key, e)) := by
  induction indexes with
  | nil => rfl
  | cons i rest ih =>
      cases ho : outcome i with
      | ok => simp [createIndexes, ho, ih]
      | error e => simp [createIndexes, ho, ih]

/-- C3: with the collection shell created, the collection's structure
replication fails exactly when at least one non-skipped attribute create
call returns an error, while index create failures are recorded in
`indexErrors` (one entry per failing index, error message preserved) and
leave the result a success when no attribute failed. -/
theorem cloneCollectionStructure_failure_partition
    (attributes : List Attribute) (attrOutcome : Attribute → CallResult)
    (attrWait : Attribute → Bool) (indexes : List Index)
    (idxOutcome : Index → CallResult) (idxWait : Index → Bool) :
    ((cloneCollectionStructure CallResult.ok attributes attrOutcome attrWait
        indexes idxOutcome idxWait).success = false ↔
      ∃ a ∈ attributes, isChildRelationship a = false ∧
        isErrorResult (attrOutcome a) = true)
    ∧ (cloneCollectionStructure CallResult.ok attributes attrOutcome attrWait
        indexes idxOutcome idxWait).indexErrors =
      indexes.filterMap (fun i =>
        match idxOutcome i with
        | CallResult.ok => none
        | CallResult.error e => some (i.key, e)) := by
  have hcount := createAttributes_errorCount attributes attrOutcome attrWait
  have hidx := createIndexes_errors indexes idxOutcome idxWait
  have hiff : (createAttributes attributes attrOutcome attrWait).errorCount > 0 ↔
      ∃ a ∈ attributes, isChildRelationship a = false ∧
        isErrorResult (attrOutcome a) = true := by
    rw [hcount, gt_iff_lt, List.length_pos_iff_exists_mem]
    constructor
    · rintro ⟨a, ha⟩
      have := List.mem_filter.mp ha
      simp only [Bool.and_eq_true, Bool.not_eq_true'] at this
      exact ⟨a, this.1, this.2.1, this.2.2⟩
    · rintro ⟨a, ha, hc, he⟩
      exact ⟨a, List.mem_filter.mpr ⟨ha, by simp [hc, he]⟩⟩
  constructor
  · by_cases hpos :
      (createAttributes attributes attrOutcome attrWait).errorCount > 0
    · have hsucc : (cloneCollectionStructure CallResult.ok attributes
          attrOutcome attrWait indexes idxOutcome idxWait).success = false := by
        simp [cloneCollectionStructure, if_pos hpos]
      exact ⟨fun _ => hiff.mp hpos, fun _ => hsucc⟩
    · have hsucc : (cloneCollectionStructure CallResult.ok attributes
          attrOutcome attrWait indexes idxOutcome idxWait).success = true := by
        simp [cloneCollectionStructure, if_neg hpos]
      constructor
      · intro h; rw [hsucc] at h; cases h
      · intro h
        exact absurd (hiff.mpr h) hpos
  · by_cases hpos :
      (createAttributes attributes attrOutcome attrWait).errorCount > 0
    · simpa [cloneCollectionStructure, if_pos hpos] using hidx
    · simpa [cloneCollectionStructure, if_neg hpos] using hidx

/-- Witness for `cloneCollectionStructure_failure_partition`: one failing
attribute fails the collection; with no attribute failure a failing index
is recorded but the collection succeeds. -/
theorem cloneCollectionStructure_failure_partition_witness :
    (cloneCollectionStructure CallResult.ok
        [⟨"a1", "string", "", "available"⟩]
        (fun _ => CallResult.error "boom") (fun _ => true)
        [] (fun _ => CallResult.ok) (fun _ => true)).success = false
    ∧ (cloneCollectionStructure CallResult.ok
        [⟨"a1", "string", "", "available"⟩]
        (fun _ => CallResult.ok) (fun _ => true)
        [⟨"i1", "key", ["a1"], ["ASC"], "available"⟩]
        (fun _ => CallResult.error "dup") (fun _ => true)).success = true := by
  constructor
  · exact (cloneCollectionStructure_failure_partition
      [⟨"a1", "string", "", "available"⟩]
      (fun _ => CallResult.error "boom") (fun _ => true)
      [] (fun _ => CallResult.ok) (fun _ => true)).1.mpr
      ⟨⟨"a1", "string", "", "available"⟩, by simp, by decide, by decide⟩
  · have h := (cloneCollectionStructure_failure_partition
      [⟨"a1", "string", "", "available"⟩]
      (fun _ => CallResult.ok) (fun _ => true)
      [⟨"i1", "key", ["a1"], ["ASC"], "available"⟩]
      (fun _ => CallResult.error "dup") (fun _ => true)).1
    by_contra hc
    rw [Bool.not_eq_true] at hc
    obtain ⟨a, ha, -, he⟩ := h.mp hc
    simp only [List.mem_singleton] at ha
    subst ha
    exact absurd he (by decide)

/-- C5: the create calls `createAttributes` issues are exactly the source
attributes that are not child-side relationship attributes, in source
order: a child-side relationship attribute is never submitted, and every
other attribute is submitted exactly as often as it occurs in the source
list (once, for distinct attributes), in the original order. -/
theorem createAttributes_submitted (attributes : List Attribute)
    (outcome : Attribute → CallResult) (wait : Attribute → Bool) :
    (createAttributes attributes outcome wait).submitted =
      attributes.filter (fun a => !isChildRelationship a)
    ∧ (∀ a ∈ attributes, isChildRelationship a = true →
        a ∉ (createAttributes attributes outcome wait).submitted)
    ∧ (∀ a, isChildRelationship a = false →
        ((createAttributes attributes outcome wait).submitted).count a =
          attributes.count a) := by
  have hsub : (createAttributes attributes outcome wait).submitted =
      attributes.filter (fun a => !isChildRelationship a) := by
    induction attributes with
    | nil => rfl
    | cons a rest ih =>
        by_cases hskip : isChildRelationship a = true
        · simp [createAttributes, hskip, ih]
        · rw [Bool.not_eq_true] at hskip
          cases ho : outcome a with
          | ok => simp [createAttributes, hskip, ho, ih]
          | error e => simp [createAttributes, hskip, ho, ih]
  refine ⟨hsub, ?_, ?_⟩
  · intro a _ hchild hmem
    rw [hsub] at hmem
    have := (List.mem_filter.mp hmem).2
    simp [hchild] at this
  · intro a ha
    rw [hsub]
    exact List.count_filter (by simp [ha])

/-- Witness for `createAttributes_submitted`: a child-side relationship
attribute between two ordinary attributes is skipped, the others are
submitted once each in order. -/
theorem createAttributes_submitted_witness :
    (createAttributes
        [⟨"a1", "string", "", "available"⟩,
         ⟨"r1", "relationship", "child", "available"⟩,
         ⟨"a2", "integer", "", "available"⟩]
        (fun _ => CallResult.ok) (fun _ => true)).submitted =
      [⟨"a1", "string", "", "available"⟩, ⟨"a2", "integer", "", "available"⟩]
    ∧ ((createAttributes
        [⟨"a1", "string", "", "available"⟩,
         ⟨"r1", "relationship", "child", "available"⟩,
         ⟨"a2", "integer", "", "available"⟩]
        (fun _ => CallResult.ok) (fun _ => true)).submitted).count
        ⟨"a1", "string", "", "available"⟩ = 1 := by
  have h := createAttributes_submitted
    [⟨"a1", "string", "", "available"⟩,
     ⟨"r1", "relationship", "child", "available"⟩,
     ⟨"a2", "integer", "", "available"⟩]
    (fun _ => CallResult.ok) (fun _ => true)
  refine ⟨by rw [h.1]; decide, ?_⟩
  rw [h.2.2 ⟨"a1", "string", "", "available"⟩ (by decide)]
  decide

theorem pollLoop_spec {α : Type} (fetch : Nat → List α)
    (keyOf statusOf : α → String) (targetKey : String) :
    ∀ (budget i : Nat),
      (pollLoop fetch keyOf statusOf targetKey i budget).2 ≤ budget
      ∧ ((pollLoop fetch keyOf statusOf targetKey i budget).1 = true ↔
          ∃ j < budget,
            keyAvailable (fetch (i + j)) keyOf statusOf targetKey = true) := by
  intro budget
  induction budget with
  | zero =>
      intro i
      exact ⟨Nat.le_refl 0, by simp [pollLoop]⟩
  | succ budget ih =>
      intro i
      have hcontinue :
          ∀ hstep : pollLoop fetch keyOf statusOf targetKey i (budget + 1) =
            ((pollLoop fetch keyOf statusOf targetKey (i + 1) budget).1,
             (pollLoop fetch keyOf statusOf targetKey (i + 1) budget).2 + 1),
          keyAvailable (fetch i) keyOf statusOf targetKey = false →
          (pollLoop fetch keyOf statusOf targetKey i (budget + 1)).2 ≤
              budget + 1
          ∧ ((pollLoop fetch keyOf statusOf targetKey i (budget + 1)).1 =
                true ↔
              ∃ j < budget + 1,
                keyAvailable (fetch (i + j)) keyOf statusOf targetKey =
                  true) := by
        intro hstep hnav
        have hrest := ih (i + 1)
        rw [hstep]
        refine ⟨Nat.succ_le_succ hrest.1, ?_⟩
        rw [hrest.2]
        constructor
        · rintro ⟨j, hj, hja⟩
          refine ⟨j + 1, Nat.succ_lt_succ hj, ?_⟩
          have h4 : i + 1 + j = i + (j + 1) := by omega
          rwa [h4] at hja
        · rintro ⟨j, hj, hja⟩
          cases j with
          | zero =>
              exfalso
              rw [Nat.add_zero] at hja
              rw [hnav] at hja
              cases hja
          | succ j =>
              refine ⟨j, Nat.lt_of_succ_lt_succ hj, ?_⟩
              have h4 : i + (j + 1) = i + 1 + j := by omega
              rwa [h4] at hja
      cases hf : (fetch i).find? (fun a => keyOf a == targetKey) with
      | some a =>
          by_cases hav : (statusOf a == "available") = true
          · have hstep : pollLoop fetch keyOf statusOf targetKey i
                (budget + 1) = (true, 1) := by
              simp [pollLoop, hf, hav]
            rw [hstep]
            refine ⟨by omega, ?_⟩
            constructor
            · intro _
              exact ⟨0, Nat.succ_pos budget, by simp [keyAvailable, hf, hav]⟩
            · intro _; rfl
          · rw [Bool.not_eq_true] at hav
            have hstep : pollLoop fetch keyOf statusOf targetKey i
                (budget + 1) =
                ((pollLoop fetch keyOf statusOf targetKey (i + 1) budget).1,
                 (pollLoop fetch keyOf statusOf targetKey (i + 1) budget).2
                   + 1) := by
              simp [pollLoop, hf, hav]
            exact hcontinue hstep (by simp [keyAvailable, hf, hav])
      | none =>
          have hstep : pollLoop fetch keyOf statusOf targetKey i
              (budget + 1) =
              ((pollLoop fetch keyOf statusOf targetKey (i + 1) budget).1,
               (pollLoop fetch keyOf statusOf targetKey (i + 1) budget).2
                 + 1) := by
            simp [pollLoop, hf]
          exact hcontinue hstep (by simp [keyAvailable, hf])

theorem createAttributes_wait_irrelevant (attributes : List Attribute)
    (outcome : Attribute → CallResult) (w1 w2 : Attribute → Bool) :
    createAttributes attributes outcome w1 =
      createAttributes attributes outcome w2 := by
  induction attributes with
  | nil => rfl
  | cons a rest ih =>
      by_cases hskip : isChildRelationship a = true
      · simp [createAttributes, hskip, ih]
      · rw [Bool.not_eq_true] at hskip
        cases ho : outcome a <;> simp [createAttributes, hskip, ho, ih]

theorem createIndexes_wait_irrelevant (indexes : List Index)
    (outcome : Index → CallResult) (v1 v2 : Index → Bool) :
    createIndexes indexes outcome v1 = createIndexes indexes outcome v2 := by
  induction indexes with
  | nil => rfl
  | cons i rest ih =>
      cases ho : outcome i <;> simp [createIndexes, ho, ih]

/-- C4: `waitForAttribute` makes at most 30 list re-fetches and succeeds
exactly when some attempt within the budget observes the matching key as
`available` (returning `false`, not raising, on exhaustion); likewise
`waitForIndex` with budget 60; and the callers ignore the poll outcome
entirely — `createAttributes` and `createIndexes` return identical
counters, error lists and submissions whatever the wait results are, so a
timeout is recorded nowhere and the batch continues. -/
theorem waitForAttribute_budget_and_nonfatal
    (fetchA : Nat → List Attribute) (attributeKey : String)
    (fetchI : Nat → List Index) (indexKey : String)
    (attributes : List Attribute) (outcomeA : Attribute → CallResult)
    (w1 w2 : Attribute → Bool)
    (indexes : List Index) (outcomeI : Index → CallResult)
    (v1 v2 : Index → Bool) :
    (waitForAttribute fetchA attributeKey 30).2 ≤ 30
    ∧ ((waitForAttribute fetchA attributeKey 30).1 = true ↔
        ∃ j < 30, keyAvailable (fetchA j) Attribute.key Attribute.status
          attributeKey = true)
    ∧ (waitForIndex fetchI indexKey 60).2 ≤ 60
    ∧ ((waitForIndex fetchI indexKey 60).1 = true ↔
        ∃ j < 60, keyAvailable (fetchI j) Index.key Index.status
          indexKey = true)
    ∧ createAttributes attributes outcomeA w1 =
        createAttributes attributes outcomeA w2
    ∧ createIndexes indexes outcomeI v1 = createIndexes indexes outcomeI v2 := by
  have hA := pollLoop_spec fetchA Attribute.key Attribute.status
    attributeKey 30 0
  have hI := pollLoop_spec fetchI Index.key Index.status indexKey 60 0
  refine ⟨hA.1, ?_, hI.1, ?_,
    createAttributes_wait_irrelevant attributes outcomeA w1 w2,
    createIndexes_wait_irrelevant indexes outcomeI v1 v2⟩
  · simpa using hA.2
  · simpa using hI.2

/-- Witness for `waitForAttribute_budget_and_nonfatal`: the attribute
becomes available on the third attempt, the index never does. -/
theorem waitForAttribute_budget_and_nonfatal_witness :
    (waitForAttribute
        (fun i => if i < 2 then [⟨"a1", "string", "", "processing"⟩]
                  else [⟨"a1", "string", "", "available"⟩]) "a1" 30).1 = true
    ∧ (waitForIndex (fun _ => []) "i1" 60).1 = false
    ∧ (waitForIndex (fun _ => []) "i1" 60).2 = 60 := by
  have h := waitForAttribute_budget_and_nonfatal
    (fun i => if i < 2 then [⟨"a1", "string", "", "processing"⟩]
              else [⟨"a1", "string", "", "available"⟩]) "a1"
    (fun _ => ([] : List Index)) "i1"
    [] (fun _ => CallResult.ok) (fun _ => true) (fun _ => true)
    [] (fun _ => CallResult.ok) (fun _ => true) (fun _ => true)
  refine ⟨?_, ?_, by decide⟩
  · exact h.2.1.mpr ⟨2, by omega, by decide⟩
  · rw [Bool.eq_false_iff]
    intro hc
    obtain ⟨j, -, hja⟩ := h.2.2.2.1.mp hc
    simp [keyAvailable, List.find?] at hja

end SchemaReplicator

section DiffEngine

/-- Escaping of string content in the embedding of `JSON.stringify`
(quotes and backslashes; control characters do not occur in the proofs'
inputs). -/
def escapeJsonString (s : String) : String :=
  s.foldl (fun acc c =>
    if c = '\"' then acc ++ "\\\""
    else if c = '\\' then acc ++ "\\\\"
    else acc ++ c.toString) ""

mutual

/-- Embedding of `JSON.stringify(value)` (compact form, as called at
src/index.js lines 770 and 782) on the `Value` type. -/
def jsonStringify : Value → String
  | Value.vnull => "null"
  | Value.vbool b => if b then "true" else "false"
  | Value.vnum n => toString n
  | Value.vstr s => "\"" ++ escapeJsonString s ++ "\""
  | Value.varr xs => "[" ++ jsonStringifyList xs ++ "]"
  | Value.vobj fs => "\x7b" ++ jsonStringifyFields fs ++ "\x7d"

/-- Comma-joined serialization of array elements. -/
def jsonStringifyList : List Value → String
  | [] => ""
  | [x] => jsonStringify x
  | x :: rest => jsonStringify x ++ "," ++ jsonStringifyList rest

/-- Comma-joined serialization of object entries. -/
def jsonStringifyFields : List (String × Value) → String
  | [] => ""
  | [(k, v)] => "\"" ++ escapeJsonString k ++ "\":" ++ jsonStringify v
  | (k, v) :: rest =>
      "\"" ++ escapeJsonString k ++ "\":" ++ jsonStringify v ++ "," ++
        jsonStringifyFields rest

end

/-- JavaScript truthiness of `doc[field]` as the diff engine tests it:
`undefined` (absent key), `null`, `false`, `0` and the empty string are
falsy; everything else is truthy. -/
def truthy : Option Value → Bool
  | none => false
  | some Value.vnull => false
  | some (Value.vbool b) => b
  | some (Value.vnum n) => !(n == 0)
  | some (Value.vstr s) => !(s == "")
  | some (Value.varr _) => true
  | some (Value.vobj _) => true

/-- The static `identifierMap` of `getUniqueIdentifierField` (src/index.js
lines 750-753). -/
def identifierMap : List (String × String) :=
  [("packaging_records", "waybill_number"),
   ("packaging_items", "packaging_record_id")]

/-- `getUniqueIdentifierField(collectionId)` (src/index.js lines 747-755):
the configured unique-identifier field, or none. -/
def getUniqueIdentifierField (collectionId : String) : Option String :=
  identifierMap.lookup collectionId

/-- `doc[field]` where the caller has already established presence; absent
keys read as `undefined`, embedded as `vnull` (only reached under a falsy
test, where the branch is not taken). -/
def fieldValue (doc : List (String × Value)) (f : String) : Value :=
  match doc.lookup f with
  | some v => v
  | none => Value.vnull

/-- The serialized-sanitized-document fallback key
(`JSON.stringify(cleanDocumentData(doc))`). -/
def contentKey (doc : List (String × Value)) : Value :=
  Value.vstr (jsonStringify (Value.vobj (cleanDocumentData doc)))

/-- `buildExistingRecordSet` (src/index.js lines 758-775): one key per
existing destination document — the identifier-field value when the field
is configured and truthy on that document, the content key otherwise —
returned together with the identifier field. The JS `Set` is embedded as
the list of added keys; membership is unaffected by its deduplication. -/
def buildExistingRecordSet (existingDocs : List (List (String × Value)))
    (collectionId : String) : List Value × Option String :=
  let identifierField := getUniqueIdentifierField collectionId
  (existingDocs.map (fun doc =>
    match identifierField with
    | some f =>
        if truthy (doc.lookup f) then fieldValue doc f
        else contentKey doc
    | none => contentKey doc),
   identifierField)

/-- `isDocumentMissing(document, existingSet, identifierField)`
(src/index.js lines 778-785). -/
def isDocumentMissing (document : List (String × Value))
    (existingSet : List Value) (identifierField : Option String) : Bool :=
  match identifierField with
  | some f =>
      if truthy (document.lookup f) then
        !(existingSet.contains (fieldValue document f))
      else !(existingSet.contains (contentKey document))
  | none => !(existingSet.contains (contentKey document))

/-- The per-document key rule both diff-engine functions share: the
identifier-field value when configured and truthy on this document, else
the content key. -/
def recordKey (identifierField : Option String)
    (doc : List (String × Value)) : Value :=
  match identifierField with
  | some f =>
      if truthy (doc.lookup f) then fieldValue doc f
      else contentKey doc
  | none => contentKey doc

/-- C10: keying is decided per document, not per collection: the existing
set is the per-document `recordKey` of each destination document — the
identifier-field value only when that document carries a truthy value
there, the serialized-sanitized content key otherwise — and
`isDocumentMissing` tests the same per-document rule, so one collection's
set may mix identifier keys and content keys. -/
theorem diffEngine_per_document_keying (collectionId : String)
    (docs : List (List (String × Value))) :
    (buildExistingRecordSet docs collectionId).1 =
      docs.map (recordKey (getUniqueIdentifierField collectionId))
    ∧ (buildExistingRecordSet docs collectionId).2 =
      getUniqueIdentifierField collectionId
    ∧ (∀ document set idf, isDocumentMissing document set idf =
        !(set.contains (recordKey idf document)))
    ∧ (∀ f document, getUniqueIdentifierField collectionId = some f →
        truthy (document.lookup f) = false →
        recordKey (getUniqueIdentifierField collectionId) document =
          contentKey document)
    ∧ (∀ f document, getUniqueIdentifierField collectionId = some f →
        truthy (document.lookup f) = true →
        recordKey (getUniqueIdentifierField collectionId) document =
          fieldValue document f) := by
  refine ⟨?_, rfl, ?_, ?_, ?_⟩
  · cases hidf : getUniqueIdentifierField collectionId with
    | none => simp [buildExistingRecordSet, recordKey, hidf]
    | some f => simp [buildExistingRecordSet, recordKey, hidf]
  · intro document set idf
    cases idf with
    | none => rfl
    | some f =>
        by_cases ht : truthy (document.lookup f) = true
        · simp [isDocumentMissing, recordKey, ht]
        · rw [Bool.not_eq_true] at ht
          simp [isDocumentMissing, recordKey, ht]
  · intro f document hf ht
    simp [recordKey, hf, ht]
  · intro f document hf ht
    simp [recordKey, hf, ht]

/-- Witness for `diffEngine_per_document_keying`: in `packaging_records`
(configured field `waybill_number`) one destination document carries the
field and one lacks it, so the existing set mixes an identifier key with a
content key. -/
theorem diffEngine_per_document_keying_witness :
    (buildExistingRecordSet
        [[("waybill_number", Value.vstr "a")], [("other", Value.vstr "x")]]
        "packaging_records").1 =
      [Value.vstr "a", contentKey [("other", Value.vstr "x")]]
    ∧ isDocumentMissing [("other", Value.vstr "x")]
        [Value.vstr "a", contentKey [("other", Value.vstr "x")]]
        (some "waybill_number") = false := by
  have h := diffEngine_per_document_keying "packaging_records"
    [[("waybill_number", Value.vstr "a")], [("other", Value.vstr "x")]]
  constructor
  · rw [h.1]
    simp [recordKey, getUniqueIdentifierField, identifierMap, truthy,
      fieldValue, List.lookup]
  · rw [h.2.2.1 [("other", Value.vstr "x")]
      [Value.vstr "a", contentKey [("other", Value.vstr "x")]]
      (some "waybill_number")]
    have hrk : recordKey (some "waybill_number") [("other", Value.vstr "x")] =
        contentKey [("other", Value.vstr "x")] := by
      simp [recordKey, truthy, List.lookup]
    rw [hrk]
    simp [List.elem_iff]

/-- C6: for a collection with a configured unique-identifier field `f`,
destination documents carrying truthy identifier values `a` and `b` and
source documents carrying `a`, `b` and a fresh truthy `c`, the diff engine
classifies exactly the `c`-keyed document as missing and the other two as
present. -/
theorem diffEngine_selects_exactly_missing (collectionId f : String)
    (hf : getUniqueIdentifierField collectionId = some f)
    (d1 d2 s1 s2 s3 : List (String × Value)) (va vb vc : Value)
    (h1 : d1.lookup f = some va) (h2 : d2.lookup f = some vb)
    (hs1 : s1.lookup f = some va) (hs2 : s2.lookup f = some vb)
    (hs3 : s3.lookup f = some vc)
    (ta : truthy (some va) = true) (tb : truthy (some vb) = true)
    (tc : truthy (some vc) = true)
    (hca : vc ≠ va) (hcb : vc ≠ vb) :
    isDocumentMissing s3 (buildExistingRecordSet [d1, d2] collectionId).1
        (buildExistingRecordSet [d1, d2] collectionId).2 = true
    ∧ isDocumentMissing s1 (buildExistingRecordSet [d1, d2] collectionId).1
        (buildExistingRecordSet [d1, d2] collectionId).2 = false
    ∧ isDocumentMissing s2 (buildExistingRecordSet [d1, d2] collectionId).1
        (buildExistingRecordSet [d1, d2] collectionId).2 = false := by
  have hset : (buildExistingRecordSet [d1, d2] collectionId).1 = [va, vb] := by
    simp [buildExistingRecordSet, hf, h1, h2, ta, tb, fieldValue]
  have hidf : (buildExistingRecordSet [d1, d2] collectionId).2 = some f := by
    simp [buildExistingRecordSet, hf]
  rw [hset, hidf]
  refine ⟨?_, ?_, ?_⟩
  · simp only [isDocumentMissing, hs3, tc, if_pos, fieldValue]
    simp [List.elem_iff]
    exact ⟨hca, hcb⟩
  · simp [isDocumentMissing, hs1, ta, fieldValue, List.elem_iff]
  · simp [isDocumentMissing, hs2, tb, fieldValue, List.elem_iff]

/-- Witness for `diffEngine_selects_exactly_missing` on concrete
`packaging_records` documents keyed `a`, `b` and `c`. -/
theorem diffEngine_selects_exactly_missing_witness :
    isDocumentMissing [("waybill_number", Value.vstr "c")]
        (buildExistingRecordSet
          [[("waybill_number", Value.vstr "a")],
           [("waybill_number", Value.vstr "b")]] "packaging_records").1
        (buildExistingRecordSet
          [[("waybill_number", Value.vstr "a")],
           [("waybill_number", Value.vstr "b")]] "packaging_records").2 = true
    ∧ isDocumentMissing [("waybill_number", Value.vstr "a")]
        (buildExistingRecordSet
          [[("waybill_number", Value.vstr "a")],
           [("waybill_number", Value.vstr "b")]] "packaging_records").1
        (buildExistingRecordSet
          [[("waybill_number", Value.vstr "a")],
           [("waybill_number", Value.vstr "b")]] "packaging_records").2 = false := by
  have h := diffEngine_selects_exactly_missing "packaging_records"
    "waybill_number" (by decide)
    [("waybill_number", Value.vstr "a")] [("waybill_number", Value.vstr "b")]
    [("waybill_number", Value.vstr "a")] [("waybill_number", Value.vstr "b")]
    [("waybill_number", Value.vstr "c")]
    (Value.vstr "a") (Value.vstr "b") (Value.vstr "c")
    rfl rfl rfl rfl rfl (by decide) (by decide) (by decide)
    (by decide) (by decide)
  exact ⟨h.1, h.2.1⟩

end DiffEngine

section Orchestrator

/-- One fetched collection of the data phase: id, name and the fetched
documents (each an open field map). -/
structure CollectionDocs where
  collectionId : String
  collectionName : String
  documents : List (List (String × Value))
  deriving DecidableEq

/-- The cache record `cacheData` built at src/index.js lines 865-875 and
handed to `writeCacheFile`: the snapshot's JSON value. `fetchedAt` is the
ambient `new Date().toISOString()` string, passed in as a parameter. -/
def buildCacheData (sourceDbId destDbId fetchedAt : String)
    (collectionDocs : List CollectionDocs) : Value :=
  Value.vobj
    [("sourceDbId", Value.vstr sourceDbId),
     ("destDbId", Value.vstr destDbId),
     ("fetchedAt", Value.vstr fetchedAt),
     ("collections", Value.varr (collectionDocs.map (fun cd =>
        Value.vobj
          [("collectionId", Value.vstr cd.collectionId),
           ("collectionName", Value.vstr cd.collectionName),
           ("documentCount", Value.vnum cd.documents.length),
           ("documents", Value.varr (cd.documents.map Value.vobj))])))]

/-- Top-level key list of an object value. -/
def objKeys : Value → List String
  | Value.vobj fs => fs.map Prod.fst
  | _ => []

/-- Top-level field access on an object value. -/
def objField (v : Value) (k : String) : Option Value :=
  match v with
  | Value.vobj fs => fs.lookup k
  | _ => none

/-- The entries of the snapshot's `collections` array. -/
def collectionsEntries (v : Value) : List Value :=
  match objField v "collections" with
  | some (Value.varr es) => es
  | _ => []

/-- The remote environment of the data phase, as `cloneDatabase` observes
it: per-collection source document listing, per-collection destination
listing (for the diff engine) and the per-document create call, each able
to fail. -/
structure DataEnv where
  fetchDocs : String → Except String (List (List (String × Value)))
  listDest : String → Except String (List (List (String × Value)))
  createDoc : String → List (String × Value) → Except String Unit

/-- Whether a remote call threw. -/
def isErrorExcept : Except String Unit → Bool
  | Except.ok _ => false
  | Except.error _ => true

/-- Aggregated per-document results of the data phase
(`results.documents`, src/index.js line 793); the per-collection grouping
of the error list is flattened to (collection name, message) pairs. -/
structure DocResults where
  success : Nat
  failed : Nat
  skipped : Nat
  errors : List (String × String)
  deriving DecidableEq

/-- Step 1 of the data phase (src/index.js lines 847-861): fetch every
collection's documents; a listing error propagates uncaught. -/
def fetchPhase (env : DataEnv) :
    List (String × String) → Except String (List CollectionDocs)
  | [] => Except.ok []
  | (cid, cname) :: rest =>
      match env.fetchDocs cid with
      | Except.error e => Except.error e
      | Except.ok docs =>
          match fetchPhase env rest with
          | Except.error e => Except.error e
          | Except.ok cds => Except.ok (⟨cid, cname, docs⟩ :: cds)

/-- The queue-building loop of step 2 (src/index.js lines 886-914): in
missing-only mode the destination listing inside `buildExistingRecordSet`
may throw (propagating uncaught); otherwise every document is queued.
Returns the per-collection queues and the skipped count. -/
def buildQueues (env : DataEnv) (missingOnly : Bool) :
    List CollectionDocs → Except String (List CollectionDocs × Nat)
  | [] => Except.ok ([], 0)
  | cd :: rest =>
      if missingOnly then
        match env.listDest cd.collectionId with
        | Except.error e => Except.error e
        | Except.ok existingDocs =>
            match buildQueues env missingOnly rest with
            | Except.error e => Except.error e
            | Except.ok (qs, sk) =>
                let s := buildExistingRecordSet existingDocs cd.collectionId
                let missingDocs := cd.documents.filter
                  (fun doc => isDocumentMissing doc s.1 s.2)
                Except.ok (⟨cd.collectionId, cd.collectionName, missingDocs⟩
                    :: qs,
                  sk + (cd.documents.length - missingDocs.length))
      else
        match buildQueues env missingOnly rest with
        | Except.error e => Except.error e
        | Except.ok (qs, sk) =>
            Except.ok (⟨cd.collectionId, cd.collectionName, cd.documents⟩
                :: qs, sk)

/-- The per-document insertion loop of one collection (src/index.js lines
932-953): sanitize, create with a fresh id, catch and record any failure.
Returns (successes, failures, recorded errors). -/
def insertDocs (env : DataEnv) (cid cname : String) :
    List (List (String × Value)) → Nat × Nat × List (String × String)
  | [] => (0, 0, [])
  | doc :: rest =>
      let rr := insertDocs env cid cname rest
      match env.createDoc cid (cleanDocumentData doc) with
      | Except.ok _ => (rr.1 + 1, rr.2.1, rr.2.2)
      | Except.error e => (rr.1, rr.2.1 + 1, (cname, e) :: rr.2.2)

/-- The insertion phase over all queued collections (src/index.js lines
927-954). -/
def insertPhase (env : DataEnv) :
    List CollectionDocs → Nat × Nat × List (String × String)
  | [] => (0, 0, [])
  | cd :: rest =>
      let r := insertDocs env cd.collectionId cd.collectionName cd.documents
      let rr := insertPhase env rest
      (r.1 + rr.1, r.2.1 + rr.2.1, r.2.2 ++ rr.2.2)

/-- The data-writing phase of `cloneDatabase` (src/index.js lines 843-966,
run when `cloneData || missingOnly`): fetch, write the snapshot, read it
back, build queues (diffing in missing-only mode), insert, and delete the
snapshot last. The second component is the snapshot file at the end of the
phase (`none` absent, `some v` present with content `v`): it stays on disk
exactly when an uncaught error occurred after the write. -/
def cloneDataPhase (env : DataEnv) (collections : List (String × String))
    (missingOnly : Bool) (sourceDbId destDbId fetchedAt : String) :
    Except String DocResults × Option Value :=
  match fetchPhase env collections with
  | Except.error e => (Except.error e, none)
  | Except.ok cds =>
      let cacheData := buildCacheData sourceDbId destDbId fetchedAt cds
      match buildQueues env missingOnly cds with
      | Except.error e => (Except.error e, some cacheData)
      | Except.ok (qs, sk) =>
          let ins := insertPhase env qs
          (Except.ok ⟨ins.1, ins.2.1, sk, ins.2.2⟩, none)

/-- C7: across the data phase, the snapshot is written only after the
fetch phase succeeds and deleted only after the insertion phase completes
without an unhandled exception: a fetch error leaves no snapshot, an
uncaught error after the write (the destination listing of missing-only
diffing) leaves the snapshot in place with the written content, and
whenever fetching and queue-building succeed the phase returns an `ok`
result — per-document create failures are caught, counted and recorded in
the error list, never thrown — and the snapshot is deleted. -/
theorem cloneDataPhase_snapshot_lifecycle (env : DataEnv)
    (collections : List (String × String)) (missingOnly : Bool)
    (sourceDbId destDbId fetchedAt : String) :
    (∀ res, (cloneDataPhase env collections missingOnly sourceDbId destDbId
        fetchedAt).1 = Except.ok res →
      (cloneDataPhase env collections missingOnly sourceDbId destDbId
        fetchedAt).2 = none)
    ∧ (∀ e, fetchPhase env collections = Except.error e →
        cloneDataPhase env collections missingOnly sourceDbId destDbId
          fetchedAt = (Except.error e, none))
    ∧ (∀ cds e, fetchPhase env collections = Except.ok cds →
        buildQueues env missingOnly cds = Except.error e →
        cloneDataPhase env collections missingOnly sourceDbId destDbId
          fetchedAt =
          (Except.error e,
           some (buildCacheData sourceDbId destDbId fetchedAt cds)))
    ∧ (∀ cds qs sk, fetchPhase env collections = Except.ok cds →
        buildQueues env missingOnly cds = Except.ok (qs, sk) →
        cloneDataPhase env collections missingOnly sourceDbId destDbId
          fetchedAt =
          (Except.ok ⟨(insertPhase env qs).1, (insertPhase env qs).2.1, sk,
            (insertPhase env qs).2.2⟩, none))
    ∧ (∀ cid cname docs, (insertDocs env cid cname docs).2.1 =
        (docs.filter (fun doc =>
          isErrorExcept (env.createDoc cid (cleanDocumentData doc)))).length) := by
  refine ⟨?_, ?_, ?_, ?_, ?_⟩
  · intro res hres
    cases hfetch : fetchPhase env collections with
    | error e =>
        rw [cloneDataPhase, hfetch] at hres
        cases hres
    | ok cds =>
        cases hq : buildQueues env missingOnly cds with
        | error e =>
            rw [cloneDataPhase, hfetch] at hres
            simp only [hq] at hres
            cases hres
        | ok p =>
            simp only [cloneDataPhase, hfetch, hq]
  · intro e hfetch
    simp [cloneDataPhase, hfetch]
  · intro cds e hfetch hq
    simp [cloneDataPhase, hfetch, hq]
  · intro cds qs sk hfetch hq
    simp [cloneDataPhase, hfetch, hq]
  · intro cid cname docs
    induction docs with
    | nil => rfl
    | cons doc rest ih =>
        cases hc : env.createDoc cid (cleanDocumentData doc) with
        | ok u => simp [insertDocs, hc, ih, isErrorExcept]
        | error e => simp [insertDocs, hc, ih, isErrorExcept]

/-- Environment for the `cloneDataPhase_snapshot_lifecycle` witness: one
source collection with one document, a destination listing that throws and
a create call that always fails. -/
def envW : DataEnv where
  fetchDocs := fun _ => Except.ok [[("name", Value.vstr "x")]]
  listDest := fun _ => Except.error "boom"
  createDoc := fun _ _ => Except.error "dup"

/-- Witness for `cloneDataPhase_snapshot_lifecycle`: a plain data run with
a failing create call still finishes `ok` (one recorded failure) with the
snapshot deleted, while a missing-only run whose destination listing
throws leaves the written snapshot on disk. -/
theorem cloneDataPhase_snapshot_lifecycle_witness :
    cloneDataPhase envW [("c1", "C1")] false "s" "d" "t" =
      (Except.ok ⟨0, 1, 0, [("C1", "dup")]⟩, none)
    ∧ cloneDataPhase envW [("c1", "C1")] true "s" "d" "t" =
      (Except.error "boom",
       some (buildCacheData "s" "d" "t"
         [⟨"c1", "C1", [[("name", Value.vstr "x")]]⟩])) := by
  have h := cloneDataPhase_snapshot_lifecycle envW [("c1", "C1")] false
    "s" "d" "t"
  have h2 := cloneDataPhase_snapshot_lifecycle envW [("c1", "C1")] true
    "s" "d" "t"
  constructor
  · have hres := h.2.2.2.1 [⟨"c1", "C1", [[("name", Value.vstr "x")]]⟩]
      [⟨"c1", "C1", [[("name", Value.vstr "x")]]⟩] 0 rfl rfl
    rw [hres]
    rfl
  · exact h2.2.2.1 [⟨"c1", "C1", [[("name", Value.vstr "x")]]⟩] "boom"
      rfl rfl

theorem collectionsEntries_buildCacheData (sourceDbId destDbId fetchedAt :
    String) (cds : List CollectionDocs) :
    collectionsEntries (buildCacheData sourceDbId destDbId fetchedAt cds) =
      cds.map (fun cd => Value.vobj
        [("collectionId", Value.vstr cd.collectionId),
         ("collectionName", Value.vstr cd.collectionName),
         ("documentCount", Value.vnum cd.documents.length),
         ("documents", Value.varr (cd.documents.map Value.vobj))]) := rfl

/-- C8 (amended): the snapshot record contains exactly the fields
`sourceDbId`, `destDbId`, `fetchedAt` and `collections`, holding the two
database ids and the timestamp string, and each collections entry contains
exactly `collectionId`, `collectionName`, `documentCount` and `documents`,
with `documentCount` equal to the length of that entry's documents list. -/
theorem cacheData_shape (sourceDbId destDbId fetchedAt : String)
    (cds : List CollectionDocs) :
    objKeys (buildCacheData sourceDbId destDbId fetchedAt cds) =
      ["sourceDbId", "destDbId", "fetchedAt", "collections"]
    ∧ objField (buildCacheData sourceDbId destDbId fetchedAt cds)
        "sourceDbId" = some (Value.vstr sourceDbId)
    ∧ objField (buildCacheData sourceDbId destDbId fetchedAt cds)
        "destDbId" = some (Value.vstr destDbId)
    ∧ objField (buildCacheData sourceDbId destDbId fetchedAt cds)
        "fetchedAt" = some (Value.vstr fetchedAt)
    ∧ (collectionsEntries (buildCacheData sourceDbId destDbId fetchedAt
        cds)).length = cds.length
    ∧ ∀ e ∈ collectionsEntries (buildCacheData sourceDbId destDbId
        fetchedAt cds),
        objKeys e =
          ["collectionId", "collectionName", "documentCount", "documents"]
        ∧ ∃ ds, objField e "documents" = some (Value.varr ds)
            ∧ objField e "documentCount" = some (Value.vnum ds.length) := by
  refine ⟨rfl, rfl, rfl, rfl, ?_, ?_⟩
  · rw [collectionsEntries_buildCacheData, List.length_map]
  · intro e he
    rw [collectionsEntries_buildCacheData] at he
    obtain ⟨cd, -, hcd⟩ := List.mem_map.mp he
    subst hcd
    refine ⟨rfl, cd.documents.map Value.vobj, rfl, ?_⟩
    rw [List.length_map]
    rfl

/-- C8 (counterexample): the snapshot's first two fields are named
`sourceDbId` and `destDbId` (the object-literal shorthand of the code),
not `sourceId` and `destId` as the claim states: those keys are absent. -/
theorem cacheData_not_sourceId :
    objKeys (buildCacheData "s" "d" "t" []) =
      ["sourceDbId", "destDbId", "fetchedAt", "collections"]
    ∧ objField (buildCacheData "s" "d" "t" []) "sourceId" = none
    ∧ objField (buildCacheData "s" "d" "t" []) "destId" = none := by
  refine ⟨by decide, by decide, by decide⟩

/-- Witness for `cacheData_shape` at a one-collection snapshot with two
documents. -/
theorem cacheData_shape_witness :
    objKeys (buildCacheData "s" "d" "t"
        [⟨"c1", "C1", [[("a", Value.vnum 1)], [("a", Value.vnum 2)]]⟩]) =
      ["sourceDbId", "destDbId", "fetchedAt", "collections"]
    ∧ ∀ e ∈ collectionsEntries (buildCacheData "s" "d" "t"
        [⟨"c1", "C1", [[("a", Value.vnum 1)], [("a", Value.vnum 2)]]⟩]),
        objField e "documentCount" = some (Value.vnum 2) := by
  have h := cacheData_shape "s" "d" "t"
    [⟨"c1", "C1", [[("a", Value.vnum 1)], [("a", Value.vnum 2)]]⟩]
  refine ⟨h.1, ?_⟩
  intro e he
  rw [collectionsEntries_buildCacheData] at he
  obtain ⟨cd, hcd, hce⟩ := List.mem_map.mp he
  rw [List.mem_singleton] at hcd
  subst hcd
  subst hce
  rfl

end Orchestrator

end Cloner
